import Mathlib

set_option maxHeartbeats 1000000

/-!
Shallow embedding of the two view generators of the lookml-generator
repository: PingView (src/generator/views/ping_view.py) and GleanPingView
(src/generator/views/glean_ping_view.py).  External collaborators — the
BigQuery schema flattener, the Glean probe catalog, and the dimension-group
predicate — are out of scope per the spec and are passed in as explicit
inputs.  Python exceptions (ClickException, IndexError, KeyError,
StopIteration) are modelled with the `Except GenError` monad.
-/

/-- Errors raised by the generators.  `clickException` models
`click.ClickException` with its message; the others model the corresponding
Python built-in exceptions. -/
inductive GenError where
  | clickException (msg : String)
  | indexError
  | keyError (key : String)
  | stopIteration
deriving Repr, DecidableEq

/-- A single-quote character, used to mirror the Python `repr` of strings
inside error messages. -/
def singleQuote : String := (Char.ofNat 39).toString

/-- Python `repr` of a string containing no quote characters, as produced by
the `!r` conversion in f-strings. -/
def pyStrRepr (s : String) : String := singleQuote ++ s ++ singleQuote

/-- Python `repr` of a list of strings, as produced by the `!r` conversion. -/
def pyListRepr (l : List String) : String :=
  "[" ++ String.intercalate ", " (l.map pyStrRepr) ++ "]"

/-- Whether the first list is an initial segment of the second. -/
def hasPrefixChars : List Char → List Char → Bool
  | [], _ => true
  | _ :: _, [] => false
  | p :: ps, c :: cs => p == c && hasPrefixChars ps cs

/-- Python `str.startswith`, on the underlying character lists so that it
evaluates by kernel reduction. -/
def pyStartsWith (s pre : String) : Bool :=
  hasPrefixChars pre.toList s.toList

/-- Worker for `pySplit`; the fuel bounds the recursion and always suffices
for a non-empty separator. -/
def pySplitAux (sep : List Char) : Nat → List Char → List Char → List (List Char)
  | _, [], cur => [cur.reverse]
  | 0, l, cur => [cur.reverse ++ l]
  | fuel + 1, c :: rest, cur =>
    if hasPrefixChars sep (c :: rest) then
      cur.reverse :: pySplitAux sep fuel ((c :: rest).drop sep.length) []
    else pySplitAux sep fuel rest (c :: cur)

/-- Python `str.split` with an explicit non-empty separator: greedy
left-to-right scan, adjacent separators produce empty pieces, and the empty
string yields `[""]`. -/
def pySplit (s sep : String) : List String :=
  (pySplitAux sep.toList (s.toList.length + 1) s.toList []).map String.mk

/-- Worker for `pyReplace`. -/
def pyReplaceAux (old new : List Char) : Nat → List Char → List Char
  | _, [] => []
  | 0, l => l
  | fuel + 1, c :: rest =>
    if hasPrefixChars old (c :: rest) then
      new ++ pyReplaceAux old new fuel ((c :: rest).drop old.length)
    else c :: pyReplaceAux old new fuel rest

/-- Python `str.replace`: replace every non-overlapping occurrence, scanning
left to right. -/
def pyReplace (s old new : String) : String :=
  String.mk (pyReplaceAux old.toList new.toList (s.toList.length + 1) s.toList)

/-- Python `str.title` for the ASCII strings occurring here: a letter that
follows a non-letter is uppercased, any other letter is lowercased,
non-letters are kept. -/
def titleCase (s : String) : String :=
  (s.toList.foldl
    (fun acc c =>
      if c.isAlpha then
        (acc.1.push (if acc.2 then c.toLower else c.toUpper), true)
      else (acc.1.push c, false))
    (("", false) : String × Bool)).1

/-- A documentation link attached to a dimension or measure. -/
structure Link where
  label : String
  url : String
  icon_url : String
deriving Repr, DecidableEq

/-- A dimension record.  Fields that a Python dict may simply omit are
modelled as `Option`; `type` defaults to "string" as in the sql map built by
`_get_glean_metric_dimensions`. -/
structure Dimension where
  name : String
  sql : String := ""
  type : String := "string"
  group_label : Option String := none
  group_item_label : Option String := none
  links : Option (List Link) := none
  description : Option String := none
deriving Repr, DecidableEq

/-- One entry of the `filters` list of a measure, e.g. `{dimension_name: ">0"}`. -/
structure MeasureFilter where
  field : String
  condition : String
deriving Repr, DecidableEq

/-- A measure record. -/
structure Measure where
  name : String
  type : String
  sql : Option String := none
  filters : Option (List MeasureFilter) := none
  links : Option (List Link) := none
deriving Repr, DecidableEq

/-- One Glean probe from the external metric catalog
(mozilla_schema_generator.probes.GleanProbe): dotted id, type, optional
description and the list of pings it is sent in. -/
structure GleanProbe where
  id : String
  type : String
  description : Option String := none
  send_in_pings : List String := []
deriving Repr, DecidableEq

/-- One repository entry of the external catalog (GleanPing.get_repos),
bundled with the probes that GleanPing(repo).get_probes() returns for it. -/
structure GleanRepo where
  name : String
  probes : List GleanProbe := []
deriving Repr, DecidableEq

/-- One entry of `self.tables`: the fully qualified table name and the
optional channel tag. -/
structure TableRef where
  table : String
  channel : Option String := none
deriving Repr, DecidableEq

/-- One allowed value of the channel parameter. -/
structure AllowedValue where
  label : String
  value : String
deriving Repr, DecidableEq

/-- The channel parameter emitted for multi-channel views. -/
structure ViewParameter where
  name : String
  type : String
  allowed_values : List AllowedValue
deriving Repr, DecidableEq

/-- The assembled view definition returned by `to_lookml`. -/
structure ViewDefn where
  name : String
  dimensions : List Dimension
  dimension_groups : List Dimension
  measures : List Measure
  parameters : Option (List ViewParameter) := none
  sql_table_name : String
deriving Repr, DecidableEq

/-- The value type of the sql map built by `_get_glean_metric_dimensions`:
`{"sql": f["sql"], "type": f.get("type", "string")}`. -/
structure SqlInfo where
  sql : String
  type : String
deriving Repr, DecidableEq

/-- The duplicate-name scan of both `get_measures` implementations:
`[k for k, v in Counter(names).items() if v > 1]`.  `Counter` iterates keys
in first-occurrence order. -/
def dupKeys (names : List String) : List String :=
  (names.foldl (fun acc n => if n ∈ acc then acc else acc ++ [n]) []).filter
    (fun k => 1 < names.count k)

/-- The measure-accumulating loop of `PingView.get_measures`
(ping_view.py lines 114-126): a dimension named client_id or
client_info__client_id yields a `clients` measure, a dimension named
document_id yields a `ping_count` measure, anything else contributes
nothing. -/
def PingView.scanMeasures : List Dimension → List Measure
  | [] => []
  | d :: rest =>
    if d.name = "client_id" ∨ d.name = "client_info__client_id" then
      { name := "clients", type := "count_distinct",
        sql := some ("$\x7b" ++ d.name ++ "\x7d") } :: PingView.scanMeasures rest
    else if d.name = "document_id" then
      { name := "ping_count", type := "count" } :: PingView.scanMeasures rest
    else PingView.scanMeasures rest

/-- PingView.get_measures (ping_view.py lines 104-143): run the two-rule
scan, report the first duplicate measure name as a ClickException, report a
ClickException when no measure was derived, otherwise return the list. -/
def PingView.get_measures (dimensions : List Dimension) (table : String) :
    Except GenError (List Measure) :=
  let measures := PingView.scanMeasures dimensions
  match dupKeys (measures.map Measure.name) with
  | dup :: _ =>
    .error (.clickException
      ("duplicate measure " ++ pyStrRepr dup ++ " for table " ++ pyStrRepr table))
  | [] =>
    if measures.isEmpty then
      .error (.clickException
        ("Missing client_id and doc_id dimensions in " ++ pyStrRepr table))
    else .ok measures

/-- The table resolution of `PingView.to_lookml` (ping_view.py lines 62-65):
the table whose channel is release, else the first table.  `t0` is the head
of `self.tables`; Python evaluates `self.tables[0]` eagerly as the default
of `next`, so an empty list raises before this function is reached. -/
def resolveTable (t0 : TableRef) (tables : List TableRef) : String :=
  ((tables.find? (fun t => t.channel == some "release")).getD t0).table

/-- Construction of the allowed values of the channel parameter
(ping_view.py lines 84-90): `table["channel"].title()` raises KeyError when
a table has no channel key. -/
def allowedValuesOf : List TableRef → Except GenError (List AllowedValue)
  | [] => .ok []
  | t :: rest =>
    match t.channel with
    | none => .error (.keyError "channel")
    | some c =>
      match allowedValuesOf rest with
      | .error e => .error e
      | .ok vs => .ok ({ label := titleCase c, value := t.table } :: vs)

/-- PingView.to_lookml (ping_view.py lines 57-97).  The schema flattener is
out of scope, so the dimension list it would return for a given table is
supplied by `dimsOf`, and the dimension-group predicate of lookml_utils is
supplied by `isDimGroup`. -/
def PingView.to_lookml (viewName : String) (tables : List TableRef)
    (isDimGroup : Dimension → Bool) (dimsOf : String → List Dimension) :
    Except GenError ViewDefn :=
  match tables with
  | [] => .error .indexError
  | t0 :: rest =>
    let table := resolveTable t0 (t0 :: rest)
    let dims := dimsOf table
    match PingView.get_measures dims table with
    | .error e => .error e
    | .ok measures =>
      if 1 < (t0 :: rest).length then
        match allowedValuesOf (t0 :: rest) with
        | .error e => .error e
        | .ok vals =>
          .ok { name := viewName,
                dimensions := dims.filter (fun d => !isDimGroup d),
                dimension_groups := dims.filter (fun d => isDimGroup d),
                measures := measures,
                parameters := some [{ name := "channel", type := "unquoted",
                                      allowed_values := vals }],
                sql_table_name := "`\x7b% parameter channel %\x7d`" }
      else
        .ok { name := viewName,
              dimensions := dims.filter (fun d => !isDimGroup d),
              dimension_groups := dims.filter (fun d => isDimGroup d),
              measures := measures,
              parameters := none,
              sql_table_name := "`" ++ table ++ "`" }

/-- glean_ping_view.py lines 12-16. -/
def DISTRIBUTION_TYPES : List String :=
  ["timing_distribution", "memory_distribution", "custom_distribution"]

/-- glean_ping_view.py lines 19-29 (set union modelled as concatenation;
only membership is ever used). -/
def ALLOWED_TYPES : List String :=
  DISTRIBUTION_TYPES ++
    ["boolean", "counter", "datetime", "jwe", "quantity", "string", "rate",
     "timespan", "uuid"]

/-- GleanPingView._get_name: the last `__`-separated piece of the dimension
name. -/
def GleanPingView._get_name (d : Dimension) : String :=
  (pySplit d.name "__").getLastD ""

/-- GleanPingView._get_metric_type: the second `__`-separated piece of the
dimension name. -/
def GleanPingView._get_metric_type (d : Dimension) : String :=
  ((pySplit d.name "__").getD 1 "")

/-- GleanPingView._is_metric: the name starts with the metrics prefix. -/
def GleanPingView._is_metric (d : Dimension) : Bool :=
  pyStartsWith d.name "metrics__"

/-- GleanPingView._get_links (glean_ping_view.py lines 38-51), with the
application namespace passed explicitly. -/
def GleanPingView._get_links (namespaceName : String) (d : Dimension) :
    List Link :=
  [{ label := "Glean Dictionary reference for "
        ++ titleCase (pyReplace (GleanPingView._get_name d) "_" " "),
     url := "https://dictionary.telemetry.mozilla.org/apps/" ++ namespaceName
        ++ "/metrics/" ++ GleanPingView._get_name d,
     icon_url := "https://dictionary.telemetry.mozilla.org/favicon.png" }]

/-- The looker name synthesized by GleanPingView._make_dimension
(glean_ping_view.py lines 89-99): metrics prefix, metric type, category path
joined with underscores, separator omitted when the category is empty, and
a double-underscore suffix when one applies. -/
def lookerName (metric : GleanProbe) (suffix : String) : String :=
  let parts := pySplit metric.id "."
  let name := parts.getLastD ""
  let category := String.intercalate "_" parts.dropLast
  let sep := if category = "" then "" else "_"
  if suffix = "" then
    "metrics__" ++ metric.type ++ "__" ++ category ++ sep ++ name
  else
    "metrics__" ++ metric.type ++ "__" ++ category ++ sep ++ name ++ "__" ++ suffix

/-- Lookup in the sql map.  The Python dict comprehension lets a later entry
with the same key overwrite an earlier one, so the fold keeps the last
match. -/
def dictLookup (m : List (String × SqlInfo)) (k : String) : Option SqlInfo :=
  m.foldl (fun acc kv => if kv.1 = k then some kv.2 else acc) none

/-- GleanPingView._make_dimension (glean_ping_view.py lines 86-133): build
the looker name, return none when it is not a key of the sql map, otherwise
assemble the dimension with group labels, link and optional description. -/
def GleanPingView._make_dimension (namespaceName : String)
    (metric : GleanProbe) (suffix : String)
    (sql_map : List (String × SqlInfo)) : Option Dimension :=
  let parts := pySplit metric.id "."
  let name := parts.getLastD ""
  let category := String.intercalate "_" parts.dropLast
  let sep := if category = "" then "" else "_"
  let label := if suffix = "" then name else name ++ "_" ++ suffix
  match dictLookup sql_map (lookerName metric suffix) with
  | none => none
  | some info =>
    let group_label0 := titleCase (pyReplace category "_" " ")
    let group_label := if group_label0 = "" then "Glean" else group_label0
    let group_item_label := titleCase (pyReplace label "_" " ")
    some { name := lookerName metric suffix,
           sql := info.sql,
           type := info.type,
           group_label := some group_label,
           group_item_label := some group_item_label,
           links := some
             [{ label := "Glean Dictionary reference for " ++ group_label
                   ++ " " ++ group_item_label,
                url := "https://dictionary.telemetry.mozilla.org/apps/"
                   ++ namespaceName ++ "/metrics/" ++ category ++ sep ++ name,
                icon_url := "https://dictionary.telemetry.mozilla.org/favicon.png" }],
           description := metric.description }

/-- GleanPingView._get_metric_dimensions (glean_ping_view.py lines
135-146): expand one probe into candidate dimensions according to its
type. -/
def GleanPingView._get_metric_dimensions (namespaceName : String)
    (metric : GleanProbe) (sql_map : List (String × SqlInfo)) :
    List (Option Dimension) :=
  if metric.type = "rate" then
    [GleanPingView._make_dimension namespaceName metric "numerator" sql_map,
     GleanPingView._make_dimension namespaceName metric "denominator" sql_map]
  else if metric.type ∈ DISTRIBUTION_TYPES then
    [GleanPingView._make_dimension namespaceName metric "sum" sql_map]
  else if metric.type = "timespan" then
    [GleanPingView._make_dimension namespaceName metric "value" sql_map]
  else if metric.type ∈ ALLOWED_TYPES then
    [GleanPingView._make_dimension namespaceName metric "" sql_map]
  else []

/-- The probe loop of GleanPingView._get_glean_metrics (glean_ping_view.py
lines 72-84): skip probes not sent in this ping, then skip probes whose id
was already kept; `ids` is the accumulated probe_ids set. -/
def dedupFilterProbes (pingName : String) :
    List GleanProbe → List String → List GleanProbe
  | [], _ => []
  | p :: rest, ids =>
    if pingName ∉ p.send_in_pings then dedupFilterProbes pingName rest ids
    else if p.id ∈ ids then dedupFilterProbes pingName rest ids
    else p :: dedupFilterProbes pingName rest (p.id :: ids)

/-- GleanPingView._get_glean_metrics (glean_ping_view.py lines 62-84): a
missing v1 name is logged and yields no probes; otherwise the repo is
looked up with `next(...)` with no default, which raises StopIteration when
no repo matches; the matching repo contributes its probe list run through
the filter-and-dedup loop. -/
def GleanPingView._get_glean_metrics (pingName : String)
    (repos : List GleanRepo) (v1_name : Option String) :
    Except GenError (List GleanProbe) :=
  match v1_name with
  | none => .ok []
  | some v =>
    match repos.find? (fun r => r.name == v) with
    | none => .error .stopIteration
    | some repo => .ok (dedupFilterProbes pingName repo.probes [])

/-- The sql map of GleanPingView._get_glean_metric_dimensions
(glean_ping_view.py lines 151-154). -/
def sqlMapOf (all_fields : List Dimension) : List (String × SqlInfo) :=
  all_fields.map (fun f => (f.name, { sql := f.sql, type := f.type }))

/-- The dimension comprehension of GleanPingView._get_glean_metric_dimensions
(glean_ping_view.py lines 156-161), with the probe list already resolved. -/
def GleanPingView._get_glean_metric_dimensions (namespaceName : String)
    (all_fields : List Dimension) (metrics : List GleanProbe) :
    List Dimension :=
  ((metrics.map (fun m =>
      GleanPingView._get_metric_dimensions namespaceName m
        (sqlMapOf all_fields))).flatten).filterMap id

/-- GleanPingView._add_link (glean_ping_view.py lines 163-170): annotate the
dimension with links only when it is a metric dimension whose metric type
does not start with "labeled". -/
def GleanPingView._add_link (namespaceName : String) (d : Dimension) :
    Dimension :=
  if GleanPingView._is_metric d
      && !(pyStartsWith (GleanPingView._get_metric_type d) "labeled") then
    { d with links := some (GleanPingView._get_links namespaceName d) }
  else d

/-- GleanPingView.get_dimensions (glean_ping_view.py lines 172-181): the
flattener output `all_fields` is an input; metric dimensions derived from
the catalog are prepended to the non-metric columns run through _add_link.
A StopIteration from the repo lookup propagates. -/
def GleanPingView.get_dimensions (namespaceName pingName : String)
    (repos : List GleanRepo) (all_fields : List Dimension)
    (v1_name : Option String) : Except GenError (List Dimension) :=
  match GleanPingView._get_glean_metrics pingName repos v1_name with
  | .error e => .error e
  | .ok metrics =>
    .ok (GleanPingView._get_glean_metric_dimensions namespaceName all_fields
           metrics
         ++ (all_fields.filter
              (fun d => !(pyStartsWith d.name "metrics__"))).map
            (GleanPingView._add_link namespaceName))

/-- The per-dimension body of the counter loop of GleanPingView.get_measures
(glean_ping_view.py lines 195-217): a metric dimension of metric type
counter contributes a sum measure named after its leaf name and a filtered
count_distinct over the client id field; other dimensions contribute
nothing.  The client id field is resolved by View._get_client_id, which
lives outside the two source files, so its result is a parameter. -/
def GleanPingView.counterMeasures (namespaceName client_id_field : String)
    (d : Dimension) : List Measure :=
  if GleanPingView._is_metric d
      && (GleanPingView._get_metric_type d == "counter") then
    [{ name := GleanPingView._get_name d,
       type := "sum",
       sql := some ("$\x7b" ++ d.name ++ "\x7d"),
       links := some (GleanPingView._get_links namespaceName d) },
     { name := GleanPingView._get_name d ++ "_client_count",
       type := "count_distinct",
       filters := some [{ field := d.name, condition := ">0" }],
       sql := some ("$\x7b" ++ client_id_field ++ "\x7d"),
       links := some (GleanPingView._get_links namespaceName d) }]
  else []

/-- GleanPingView.get_measures (glean_ping_view.py lines 183-227): run the
base scan (including its own checks), append the counter measures, then
report every duplicate name in one ClickException. -/
def GleanPingView.get_measures (namespaceName client_id_field : String)
    (dimensions : List Dimension) (table : String) :
    Except GenError (List Measure) :=
  match PingView.get_measures dimensions table with
  | .error e => .error e
  | .ok base =>
    let measures := base ++
      (dimensions.map
        (GleanPingView.counterMeasures namespaceName client_id_field)).flatten
    match dupKeys (measures.map Measure.name) with
    | [] => .ok measures
    | dup :: dups =>
      .error (.clickException
        ("duplicate measures " ++ pyListRepr (dup :: dups)
          ++ " for table " ++ pyStrRepr table))

/-- First-wins deduplication by probe id, as the spec words it; `ids` is the
set of ids already seen. -/
def dedupByIdAux : List GleanProbe → List String → List GleanProbe
  | [], _ => []
  | p :: rest, ids =>
    if p.id ∈ ids then dedupByIdAux rest ids
    else p :: dedupByIdAux rest (p.id :: ids)

/-- Modelled from the spec: the probe-selection order as the spec words it —
"first deduplicating by probe id (first occurrence wins) and then filtering
to probes whose declared ping destinations include this ping" — to be
compared with the order the source implements. -/
def dedupThenFilterProbes (pingName : String) (probes : List GleanProbe) :
    List GleanProbe :=
  (dedupByIdAux probes []).filter (fun p => pingName ∈ p.send_in_pings)


/-! Helper lemmas about the duplicate-name scan. -/

/-- Membership in the first-occurrence accumulator of `dupKeys`. -/
lemma mem_foldl_seen (names : List String) (acc : List String) (a : String) :
    a ∈ names.foldl (fun acc n => if n ∈ acc then acc else acc ++ [n]) acc ↔
      a ∈ acc ∨ a ∈ names := by
  induction names generalizing acc with
  | nil => simp
  | cons n rest ih =>
    simp only [List.foldl_cons]
    rw [ih]
    by_cases h : n ∈ acc
    · simp only [if_pos h, List.mem_cons]
      constructor
      · rintro (ha | ha)
        · exact Or.inl ha
        · exact Or.inr (Or.inr ha)
      · rintro (ha | rfl | ha)
        · exact Or.inl ha
        · exact Or.inl h
        · exact Or.inr ha
    · simp only [if_neg h, List.mem_append, List.mem_singleton, List.mem_cons]
      tauto

/-- The duplicate scan is empty exactly when no name occurs more than once. -/
lemma dupKeys_eq_nil_iff (names : List String) :
    dupKeys names = [] ↔ ∀ a ∈ names, names.count a ≤ 1 := by
  unfold dupKeys
  rw [List.filter_eq_nil_iff]
  constructor
  · intro h a ha
    have := h a ((mem_foldl_seen names [] a).mpr (Or.inr ha))
    simpa using this
  · intro h a ha
    rcases (mem_foldl_seen names [] a).mp ha with h0 | h1
    · simp at h0
    · simpa using h a h1

/-- An empty duplicate scan means the list of names has no duplicates. -/
lemma nodup_of_dupKeys_eq_nil {names : List String} (h : dupKeys names = []) :
    names.Nodup := by
  rw [List.nodup_iff_count_le_one]
  intro a
  by_cases ha : a ∈ names
  · exact (dupKeys_eq_nil_iff names).mp h a ha
  · simp [List.count_eq_zero_of_not_mem ha]

/-! Helper lemmas about the base measure scan. -/

/-- Occurrences of the clients measure track occurrences of the two client
identity dimensions. -/
lemma scanMeasures_count_clients (dims : List Dimension) :
    ((PingView.scanMeasures dims).map Measure.name).count "clients" =
      (dims.map Dimension.name).count "client_id" +
        (dims.map Dimension.name).count "client_info__client_id" := by
  induction dims with
  | nil => rfl
  | cons d rest ih =>
    by_cases hc : d.name = "client_id"
    · simp only [PingView.scanMeasures, hc, List.map_cons]
      simp [List.count_cons, ih]
      omega
    · by_cases hci : d.name = "client_info__client_id"
      · simp only [PingView.scanMeasures, hci, List.map_cons]
        simp [List.count_cons, ih]
        omega
      · by_cases hd : d.name = "document_id"
        · simp only [PingView.scanMeasures, hd, List.map_cons]
          simp [List.count_cons, ih, hc, hci]
        · simp only [PingView.scanMeasures, List.map_cons]
          rw [if_neg (by tauto), if_neg hd]
          simp [List.count_cons, ih, hc, hci]

/-- Occurrences of the ping_count measure track occurrences of the
document_id dimension. -/
lemma scanMeasures_count_ping_count (dims : List Dimension) :
    ((PingView.scanMeasures dims).map Measure.name).count "ping_count" =
      (dims.map Dimension.name).count "document_id" := by
  induction dims with
  | nil => rfl
  | cons d rest ih =>
    by_cases hc : d.name = "client_id"
    · simp only [PingView.scanMeasures, hc, List.map_cons]
      simp [List.count_cons, ih]
    · by_cases hci : d.name = "client_info__client_id"
      · simp only [PingView.scanMeasures, hci, List.map_cons]
        simp [List.count_cons, ih]
      · by_cases hd : d.name = "document_id"
        · simp only [PingView.scanMeasures, hd, List.map_cons]
          simp [List.count_cons, ih]
        · simp only [PingView.scanMeasures, List.map_cons]
          rw [if_neg (by tauto), if_neg hd]
          simp [List.count_cons, ih, hd]

/-- Every measure produced by the base scan is named clients or ping_count. -/
lemma scanMeasures_name_mem (dims : List Dimension) :
    ∀ m ∈ PingView.scanMeasures dims,
      m.name = "clients" ∨ m.name = "ping_count" := by
  induction dims with
  | nil => intro m hm; simp [PingView.scanMeasures] at hm
  | cons d rest ih =>
    intro m hm
    by_cases hc : d.name = "client_id" ∨ d.name = "client_info__client_id"
    · rw [PingView.scanMeasures, if_pos hc] at hm
      rcases List.mem_cons.mp hm with rfl | hm
      · exact Or.inl rfl
      · exact ih m hm
    · by_cases hd : d.name = "document_id"
      · rw [PingView.scanMeasures, if_neg hc, if_pos hd] at hm
        rcases List.mem_cons.mp hm with rfl | hm
        · exact Or.inr rfl
        · exact ih m hm
      · rw [PingView.scanMeasures, if_neg hc, if_neg hd] at hm
        exact ih m hm

/-- The base scan yields nothing when no identity dimension is present. -/
lemma scanMeasures_eq_nil {dims : List Dimension}
    (h : ∀ d ∈ dims, d.name ≠ "client_id" ∧ d.name ≠ "client_info__client_id"
        ∧ d.name ≠ "document_id") :
    PingView.scanMeasures dims = [] := by
  induction dims with
  | nil => rfl
  | cons d rest ih =>
    obtain ⟨h1, h2, h3⟩ := h d (List.mem_cons_self d rest)
    rw [PingView.scanMeasures, if_neg (by tauto), if_neg h3]
    exact ih (fun x hx => h x (List.mem_cons_of_mem d hx))

/-- Claim C1: the expansion of a metric probe into candidate dimensions
follows its type exactly: rate yields the two candidates suffixed numerator
and denominator, a distribution type yields the single candidate suffixed
sum, timespan yields the single candidate suffixed value, every other
allowed type yields the single unsuffixed candidate, and a type outside the
allowed vocabulary yields no candidate. -/
theorem C1_type_expansion (ns : String) (m : GleanProbe)
    (sql_map : List (String × SqlInfo)) :
    (m.type = "rate" →
      GleanPingView._get_metric_dimensions ns m sql_map =
        [GleanPingView._make_dimension ns m "numerator" sql_map,
         GleanPingView._make_dimension ns m "denominator" sql_map]) ∧
    (m.type ∈ DISTRIBUTION_TYPES →
      GleanPingView._get_metric_dimensions ns m sql_map =
        [GleanPingView._make_dimension ns m "sum" sql_map]) ∧
    (m.type = "timespan" →
      GleanPingView._get_metric_dimensions ns m sql_map =
        [GleanPingView._make_dimension ns m "value" sql_map]) ∧
    (m.type ∈ ALLOWED_TYPES → m.type ∉ DISTRIBUTION_TYPES → m.type ≠ "rate" →
      m.type ≠ "timespan" →
      GleanPingView._get_metric_dimensions ns m sql_map =
        [GleanPingView._make_dimension ns m "" sql_map]) ∧
    (m.type ∉ ALLOWED_TYPES →
      GleanPingView._get_metric_dimensions ns m sql_map = []) := by
  have hsub : ∀ s ∈ DISTRIBUTION_TYPES, s ∈ ALLOWED_TYPES := by
    intro s hs
    simp only [DISTRIBUTION_TYPES, List.mem_cons, List.not_mem_nil, or_false] at hs
    rcases hs with rfl | rfl | rfl <;> decide
  refine ⟨?_, ?_, ?_, ?_, ?_⟩
  · intro h
    unfold GleanPingView._get_metric_dimensions
    rw [if_pos h]
  · intro h
    have hr : m.type ≠ "rate" := by
      intro e; rw [e] at h; revert h; decide
    unfold GleanPingView._get_metric_dimensions
    rw [if_neg hr, if_pos h]
  · intro h
    have hr : m.type ≠ "rate" := by rw [h]; decide
    have hdist : m.type ∉ DISTRIBUTION_TYPES := by rw [h]; decide
    unfold GleanPingView._get_metric_dimensions
    rw [if_neg hr, if_neg hdist, if_pos h]
  · intro ha hdist hr ht
    unfold GleanPingView._get_metric_dimensions
    rw [if_neg hr, if_neg hdist, if_neg ht, if_pos ha]
  · intro ha
    have hr : m.type ≠ "rate" := fun e => ha (by rw [e]; decide)
    have ht : m.type ≠ "timespan" := fun e => ha (by rw [e]; decide)
    have hdist : m.type ∉ DISTRIBUTION_TYPES := fun hd => ha (hsub _ hd)
    unfold GleanPingView._get_metric_dimensions
    rw [if_neg hr, if_neg hdist, if_neg ht, if_neg ha]

/-- Witness for C1 at a concrete rate probe. -/
theorem C1_type_expansion_witness :
    GleanPingView._get_metric_dimensions "ns"
        { id := "cat.met", type := "rate" } [] =
      [GleanPingView._make_dimension "ns" { id := "cat.met", type := "rate" }
         "numerator" [],
       GleanPingView._make_dimension "ns" { id := "cat.met", type := "rate" }
         "denominator" []] :=
  (C1_type_expansion "ns" { id := "cat.met", type := "rate" } []).1 rfl

/-- Claim C2 fails as stated: a dimension list containing both client_id and
client_info__client_id together with document_id satisfies the premise of
the claim, yet the base generator raises a duplicate-measure ClickException
instead of succeeding. -/
theorem C2_counterexample :
    PingView.get_measures
      [{ name := "client_id" }, { name := "client_info__client_id" },
       { name := "document_id" }] "t" =
      .error (.clickException
        ("duplicate measure " ++ pyStrRepr "clients" ++ " for table "
          ++ pyStrRepr "t")) := by
  rfl

/-- Claim C2 as amended: when the dimension list contains exactly one
occurrence of a client identity column (client_id or client_info__client_id,
counted together) and exactly one document_id column, measure generation
succeeds and the result contains exactly one clients measure and exactly one
ping_count measure. -/
theorem C2_identity_measures (dims : List Dimension) (table : String)
    (h1 : (dims.map Dimension.name).count "client_id" +
        (dims.map Dimension.name).count "client_info__client_id" = 1)
    (h2 : (dims.map Dimension.name).count "document_id" = 1) :
    PingView.get_measures dims table = .ok (PingView.scanMeasures dims) ∧
      ((PingView.scanMeasures dims).map Measure.name).count "clients" = 1 ∧
      ((PingView.scanMeasures dims).map Measure.name).count "ping_count" = 1 := by
  have hc : ((PingView.scanMeasures dims).map Measure.name).count "clients" = 1 := by
    rw [scanMeasures_count_clients]; omega
  have hp : ((PingView.scanMeasures dims).map Measure.name).count "ping_count" = 1 := by
    rw [scanMeasures_count_ping_count]; exact h2
  have hall : ∀ a ∈ (PingView.scanMeasures dims).map Measure.name,
      ((PingView.scanMeasures dims).map Measure.name).count a ≤ 1 := by
    intro a ha
    obtain ⟨m, hm, rfl⟩ := List.mem_map.mp ha
    rcases scanMeasures_name_mem dims m hm with h | h <;> rw [h]
    · omega
    · omega
  have hdup : dupKeys ((PingView.scanMeasures dims).map Measure.name) = [] :=
    (dupKeys_eq_nil_iff _).mpr hall
  have hne : ¬ (PingView.scanMeasures dims).isEmpty = true := by
    intro he
    cases hscan : PingView.scanMeasures dims with
    | nil => rw [hscan] at hc; simp at hc
    | cons a l => rw [hscan] at he; simp at he
  refine ⟨?_, hc, hp⟩
  simp only [PingView.get_measures, hdup]
  simp [hne]

/-- Witness for C2 as amended at a concrete dimension list. -/
theorem C2_identity_measures_witness :
    PingView.get_measures [{ name := "client_id" }, { name := "document_id" }]
        "t" =
      .ok (PingView.scanMeasures
        [{ name := "client_id" }, { name := "document_id" }]) ∧
      ((PingView.scanMeasures
          [{ name := "client_id" }, { name := "document_id" }]).map
        Measure.name).count "clients" = 1 ∧
      ((PingView.scanMeasures
          [{ name := "client_id" }, { name := "document_id" }]).map
        Measure.name).count "ping_count" = 1 :=
  C2_identity_measures [{ name := "client_id" }, { name := "document_id" }]
    "t" (by decide) (by decide)

/-- Claim C3: a dimension list containing none of the identity columns makes
measure generation fail with a ClickException whose message names the
missing identity dimensions and the table, and no measure list is
returned. -/
theorem C3_missing_identity_error (dims : List Dimension) (table : String)
    (h : ∀ d ∈ dims, d.name ≠ "client_id" ∧ d.name ≠ "client_info__client_id"
        ∧ d.name ≠ "document_id") :
    PingView.get_measures dims table =
      .error (.clickException
        ("Missing client_id and doc_id dimensions in " ++ pyStrRepr table)) ∧
      ∀ ms, PingView.get_measures dims table ≠ .ok ms := by
  have hscan := scanMeasures_eq_nil h
  have hmain : PingView.get_measures dims table =
      .error (.clickException
        ("Missing client_id and doc_id dimensions in " ++ pyStrRepr table)) := by
    simp [PingView.get_measures, hscan, dupKeys]
  refine ⟨hmain, fun ms hok => ?_⟩
  rw [hmain] at hok
  exact Except.noConfusion hok

/-- Witness for C3 at a concrete dimension list. -/
theorem C3_missing_identity_error_witness :
    PingView.get_measures [{ name := "foo" }] "tbl" =
      .error (.clickException
        ("Missing client_id and doc_id dimensions in " ++ pyStrRepr "tbl")) ∧
      ∀ ms, PingView.get_measures [{ name := "foo" }] "tbl" ≠ .ok ms :=
  C3_missing_identity_error [{ name := "foo" }] "tbl" (by decide)

/-- Whether an Except value is a success. -/
def exceptIsOk {α : Type} : Except GenError α → Bool
  | .ok _ => true
  | .error _ => false

/-- Claim C4 fails as stated: two probes with distinct ids (a.b_c and a_b.c
of type boolean) synthesize the same dimension name metrics__boolean__a_b_c;
the generated view contains that name twice, and measure generation still
succeeds, so no name-collision error is raised for duplicate dimension
names. -/
theorem C4_counterexample :
    ((GleanPingView.get_dimensions "app" "p"
        [{ name := "app", probes :=
            [{ id := "a.b_c", type := "boolean", send_in_pings := ["p"] },
             { id := "a_b.c", type := "boolean", send_in_pings := ["p"] }] }]
        [{ name := "metrics__boolean__a_b_c", sql := "s", type := "yesno" },
         { name := "client_id", sql := "cs" },
         { name := "document_id", sql := "ds" }]
        (some "app")).map
      (fun L => decide (L.map Dimension.name).Nodup)) = .ok false ∧
    exceptIsOk
      ((GleanPingView.get_dimensions "app" "p"
        [{ name := "app", probes :=
            [{ id := "a.b_c", type := "boolean", send_in_pings := ["p"] },
             { id := "a_b.c", type := "boolean", send_in_pings := ["p"] }] }]
        [{ name := "metrics__boolean__a_b_c", sql := "s", type := "yesno" },
         { name := "client_id", sql := "cs" },
         { name := "document_id", sql := "ds" }]
        (some "app")).bind
        (fun L => GleanPingView.get_measures "app" "client_id" L "t")) =
      true := by
  exact ⟨rfl, rfl⟩

/-- Claim C4 as amended: measure names in one generated view are pairwise
distinct — any duplicate makes get_measures raise instead of returning —
while dimension names are not checked at all (see the counterexample). -/
theorem C4_measure_names_nodup (ns cf : String) (dims : List Dimension)
    (table : String) (ms : List Measure)
    (h : GleanPingView.get_measures ns cf dims table = .ok ms) :
    (ms.map Measure.name).Nodup := by
  unfold GleanPingView.get_measures at h
  split at h
  · exact absurd h (by simp)
  · dsimp only at h
    split at h
    next hdup =>
      rw [Except.ok.injEq] at h
      subst h
      exact nodup_of_dupKeys_eq_nil hdup
    next dup rest hdup =>
      exact absurd h (by simp)

/-- Witness for C4 as amended at a concrete dimension list. -/
theorem C4_measure_names_nodup_witness :
    (([{ name := "clients", type := "count_distinct",
         sql := some "$\x7bclient_id\x7d" },
       { name := "ping_count", type := "count" }] : List Measure).map
      Measure.name).Nodup :=
  C4_measure_names_nodup "app" "cid"
    [{ name := "client_id" }, { name := "document_id" }] "t"
    [{ name := "clients", type := "count_distinct",
       sql := some "$\x7bclient_id\x7d" },
     { name := "ping_count", type := "count" }] (by rfl)

/-- Claim C5: a metric dimension of metric type counter contributes exactly
two extra measures: a sum over the field named after the leaf name, and a
count_distinct over the client identifier field named leaf name plus
_client_count, filtered to rows where the counter is greater than zero, both
carrying the documentation link of the metric. -/
theorem C5_counter_measures (ns cf : String) (d : Dimension)
    (h1 : GleanPingView._is_metric d = true)
    (h2 : GleanPingView._get_metric_type d = "counter") :
    GleanPingView.counterMeasures ns cf d =
      [{ name := GleanPingView._get_name d, type := "sum",
         sql := some ("$\x7b" ++ d.name ++ "\x7d"),
         filters := none,
         links := some (GleanPingView._get_links ns d) },
       { name := GleanPingView._get_name d ++ "_client_count",
         type := "count_distinct",
         sql := some ("$\x7b" ++ cf ++ "\x7d"),
         filters := some [{ field := d.name, condition := ">0" }],
         links := some (GleanPingView._get_links ns d) }] := by
  unfold GleanPingView.counterMeasures
  rw [h1, h2]
  simp

/-- Witness for C5 at the concrete dimension metrics__counter__foo_bar. -/
theorem C5_counter_measures_witness :
    GleanPingView.counterMeasures "app" "client_id"
        { name := "metrics__counter__foo_bar" } =
      [{ name := GleanPingView._get_name { name := "metrics__counter__foo_bar" },
         type := "sum",
         sql := some ("$\x7b" ++ "metrics__counter__foo_bar" ++ "\x7d"),
         filters := none,
         links := some (GleanPingView._get_links "app"
           { name := "metrics__counter__foo_bar" }) },
       { name := GleanPingView._get_name { name := "metrics__counter__foo_bar" }
           ++ "_client_count",
         type := "count_distinct",
         sql := some ("$\x7b" ++ "client_id" ++ "\x7d"),
         filters := some [{ field := "metrics__counter__foo_bar",
                            condition := ">0" }],
         links := some (GleanPingView._get_links "app"
           { name := "metrics__counter__foo_bar" }) }] :=
  C5_counter_measures "app" "client_id" { name := "metrics__counter__foo_bar" }
    (by rfl) (by rfl)

/-- The sql-map lookup succeeds exactly when the key is present. -/
lemma dictLookup_isSome_iff (m : List (String × SqlInfo)) (k : String) :
    (dictLookup m k).isSome = true ↔ k ∈ m.map Prod.fst := by
  suffices h : ∀ acc : Option SqlInfo,
      (m.foldl (fun acc kv => if kv.1 = k then some kv.2 else acc) acc).isSome
          = true ↔
        acc.isSome = true ∨ k ∈ m.map Prod.fst by
    simpa [dictLookup] using h none
  induction m with
  | nil => intro acc; simp
  | cons kv rest ih =>
    intro acc
    simp only [List.foldl_cons, List.map_cons, List.mem_cons]
    rw [ih]
    by_cases hk : kv.1 = k
    · simp [hk]
    · have hk2 : ¬(k = kv.1) := fun e => hk e.symm
      simp only [if_neg hk]
      tauto

/-- Claim C6: a metric candidate is materialized into a dimension exactly
when its synthesized looker name (metrics prefix, metric type, category
path, leaf name and optional suffix, see `lookerName`) is a key of the
flattened column map, and the materialized dimension carries that name; an
absent candidate contributes no dimension. -/
theorem C6_strict_cross_reference (ns : String) (metric : GleanProbe)
    (suffix : String) (sql_map : List (String × SqlInfo)) :
    ((GleanPingView._make_dimension ns metric suffix sql_map).isSome = true ↔
      lookerName metric suffix ∈ sql_map.map Prod.fst) ∧
    ∀ d, GleanPingView._make_dimension ns metric suffix sql_map = some d →
      d.name = lookerName metric suffix := by
  constructor
  · rw [← dictLookup_isSome_iff]
    unfold GleanPingView._make_dimension
    cases h : dictLookup sql_map (lookerName metric suffix) <;> simp [h]
  · intro d hd
    unfold GleanPingView._make_dimension at hd
    cases h : dictLookup sql_map (lookerName metric suffix) with
    | none => rw [h] at hd; exact absurd hd (by simp)
    | some info =>
      rw [h] at hd
      simp only [Option.some.injEq] at hd
      rw [← hd]

/-- Witness for C6 at a concrete probe and column map. -/
theorem C6_strict_cross_reference_witness :
    (GleanPingView._make_dimension "ns" { id := "a.b", type := "counter" } ""
        [("metrics__counter__a_b", { sql := "s", type := "string" })]).isSome
      = true :=
  (C6_strict_cross_reference "ns" { id := "a.b", type := "counter" } ""
    [("metrics__counter__a_b", { sql := "s", type := "string" })]).1.mpr
    (by decide)

/-- The probe loop of the source equals filtering by ping first and then
deduplicating by id among the survivors. -/
lemma dedupFilter_eq_filter_dedup (ping : String) (probes : List GleanProbe)
    (ids : List String) :
    dedupFilterProbes ping probes ids =
      dedupByIdAux (probes.filter (fun p => ping ∈ p.send_in_pings)) ids := by
  induction probes generalizing ids with
  | nil => rfl
  | cons p rest ih =>
    by_cases hs : ping ∈ p.send_in_pings
    · by_cases hid : p.id ∈ ids
      · rw [dedupFilterProbes, if_neg (by simp [hs])]
        rw [if_pos hid]
        rw [List.filter_cons, if_pos (by simpa using hs)]
        rw [dedupByIdAux, if_pos hid]
        exact ih ids
      · rw [dedupFilterProbes, if_neg (by simp [hs])]
        rw [if_neg hid]
        rw [List.filter_cons, if_pos (by simpa using hs)]
        rw [dedupByIdAux, if_neg hid]
        rw [ih]
    · rw [dedupFilterProbes, if_pos hs]
      rw [List.filter_cons, if_neg (by simpa using hs)]
      exact ih ids

/-- Claim C7 fails as stated: the source filters by ping destination before
deduplicating by id.  With two probes of identical id x where only the
second is sent in ping p, the source keeps the second probe, while the order
the claim states (deduplicate first, first occurrence wins, then filter)
would keep nothing. -/
theorem C7_counterexample :
    GleanPingView._get_glean_metrics "p"
        [{ name := "v", probes :=
            [{ id := "x", type := "counter", send_in_pings := [] },
             { id := "x", type := "counter", send_in_pings := ["p"] }] }]
        (some "v") =
      .ok [{ id := "x", type := "counter", send_in_pings := ["p"] }] ∧
    dedupThenFilterProbes "p"
        [{ id := "x", type := "counter", send_in_pings := [] },
         { id := "x", type := "counter", send_in_pings := ["p"] }] = [] ∧
    ([{ id := "x", type := "counter", send_in_pings := ["p"] }] :
        List GleanProbe) ≠ [] :=
  ⟨rfl, rfl, by decide⟩

/-- Claim C7 as amended: the probes contributing metric dimensions are
obtained by first filtering to probes whose declared ping destinations
include this ping, and then deduplicating by probe id among the survivors,
first surviving occurrence wins; in particular two surviving probes with
identical id yield one candidate set. -/
theorem C7_filter_then_dedup (pingName : String) (repos : List GleanRepo)
    (v : String) (repo : GleanRepo)
    (h : repos.find? (fun r => r.name == v) = some repo) :
    GleanPingView._get_glean_metrics pingName repos (some v) =
      .ok (dedupByIdAux
        (repo.probes.filter (fun p => pingName ∈ p.send_in_pings)) []) := by
  unfold GleanPingView._get_glean_metrics
  dsimp only
  rw [h]
  dsimp only
  rw [dedupFilter_eq_filter_dedup]

/-- Witness for C7 as amended at a concrete catalog. -/
theorem C7_filter_then_dedup_witness :
    GleanPingView._get_glean_metrics "q"
        [{ name := "w", probes :=
            [{ id := "y", type := "string", send_in_pings := ["q"] }] }]
        (some "w") =
      .ok (dedupByIdAux
        (List.filter (fun p => decide ("q" ∈ p.send_in_pings))
          [{ id := "y", type := "string", send_in_pings := ["q"] }]) []) :=
  C7_filter_then_dedup "q"
    [{ name := "w", probes :=
        [{ id := "y", type := "string", send_in_pings := ["q"] }] }]
    "w"
    { name := "w", probes :=
        [{ id := "y", type := "string", send_in_pings := ["q"] }] }
    (by rfl)

/-- The pass-through columns of get_dimensions go through _add_link
unchanged, because the link branch requires the metrics prefix which the
filter excludes. -/
lemma map_addLink_filter (ns : String) (fields : List Dimension) :
    (fields.filter (fun d => !(pyStartsWith d.name "metrics__"))).map
        (GleanPingView._add_link ns) =
      fields.filter (fun d => !(pyStartsWith d.name "metrics__")) := by
  induction fields with
  | nil => rfl
  | cons d rest ih =>
    by_cases h : pyStartsWith d.name "metrics__" = true
    · simp only [List.filter_cons]
      rw [if_neg (by simp [h])]
      exact ih
    · simp only [List.filter_cons]
      rw [if_pos (by simp [Bool.not_eq_true] at h ⊢; exact h)]
      rw [List.map_cons, ih]
      have hd : GleanPingView._add_link ns d = d := by
        unfold GleanPingView._add_link GleanPingView._is_metric
        rw [if_neg (by simp [Bool.not_eq_true] at h; simp [h])]
      rw [hd]

/-- Claim C8 fails as stated: a pass-through column (name without the
metrics prefix) is emitted completely unchanged, with no documentation-link
annotation, because the link branch of _add_link fires only for names that
do carry the metrics prefix. -/
theorem C8_counterexample :
    GleanPingView.get_dimensions "app" "p" []
        [{ name := "client_id", sql := "s" }] none =
      .ok [{ name := "client_id", sql := "s" }] ∧
    ({ name := "client_id", sql := "s" } : Dimension).links = none :=
  ⟨rfl, rfl⟩

/-- Claim C8 as amended: columns whose name does not begin with the metrics
prefix are passed through entirely unchanged — never link-annotated — and a
dimension whose metric type starts with labeled is never link-annotated
either; the final dimension list always ends with the unmodified non-metric
columns. -/
theorem C8_passthrough_unchanged :
    (∀ ns d, pyStartsWith d.name "metrics__" = false →
      GleanPingView._add_link ns d = d) ∧
    (∀ ns d, pyStartsWith (GleanPingView._get_metric_type d) "labeled" = true →
      GleanPingView._add_link ns d = d) ∧
    (∀ ns ping repos fields v L,
      GleanPingView.get_dimensions ns ping repos fields v = .ok L →
      ∃ mdims, L = mdims ++
        fields.filter (fun d => !(pyStartsWith d.name "metrics__"))) := by
  refine ⟨?_, ?_, ?_⟩
  · intro ns d h
    unfold GleanPingView._add_link GleanPingView._is_metric
    rw [if_neg (by simp [h])]
  · intro ns d h
    unfold GleanPingView._add_link
    rw [if_neg (by simp [h])]
  · intro ns ping repos fields v L hL
    unfold GleanPingView.get_dimensions at hL
    split at hL
    · exact absurd hL (by simp)
    · rw [Except.ok.injEq] at hL
      rw [map_addLink_filter] at hL
      exact ⟨_, hL.symm⟩

/-- Witness for C8 as amended at a concrete non-metric column. -/
theorem C8_passthrough_unchanged_witness :
    GleanPingView._add_link "app" { name := "document_id" } =
      { name := "document_id" } :=
  C8_passthrough_unchanged.1 "app" { name := "document_id" } (by rfl)

/-- Claim C9 fails as stated: when the application key is present but has no
matching application in the catalog, the repo lookup (next with no default)
raises StopIteration, so view generation aborts instead of producing a view
with zero metric dimensions. -/
theorem C9_counterexample :
    GleanPingView.get_dimensions "app" "p" [] [{ name := "client_id" }]
        (some "x") =
      .error .stopIteration :=
  rfl

/-- Claim C9 as amended: a missing (None) application key is logged and
contributes zero catalog-derived metric dimensions without aborting — the
view consists of the pass-through columns alone — while a present key with
no matching catalog application raises StopIteration and aborts the view. -/
theorem C9_missing_key_behavior :
    (∀ ns ping repos fields,
      GleanPingView.get_dimensions ns ping repos fields none =
        .ok ((fields.filter (fun d => !(pyStartsWith d.name "metrics__"))).map
          (GleanPingView._add_link ns))) ∧
    (∀ ns ping repos fields v,
      repos.find? (fun r => r.name == v) = none →
      GleanPingView.get_dimensions ns ping repos fields (some v) =
        .error .stopIteration) := by
  constructor
  · intro ns ping repos fields
    rfl
  · intro ns ping repos fields v h
    unfold GleanPingView.get_dimensions GleanPingView._get_glean_metrics
    dsimp only
    rw [h]

/-- Witness for C9 as amended at a concrete empty catalog. -/
theorem C9_missing_key_behavior_witness :
    GleanPingView.get_dimensions "a" "q" [] [] (some "z") =
      .error .stopIteration :=
  C9_missing_key_behavior.2 "a" "q" [] [] "z" (by rfl)

/-- A table variant without a channel key makes the allowed-values
construction raise KeyError. -/
lemma allowedValuesOf_error {tables : List TableRef}
    (h : ∃ t ∈ tables, t.channel = none) :
    allowedValuesOf tables = .error (.keyError "channel") := by
  induction tables with
  | nil => simp at h
  | cons t rest ih =>
    obtain ⟨u, hu, hch⟩ := h
    rcases List.mem_cons.mp hu with rfl | hmem
    · rw [allowedValuesOf, hch]
    · cases hch2 : t.channel with
      | none => rw [allowedValuesOf, hch2]
      | some c =>
        rw [allowedValuesOf, hch2, ih ⟨u, hmem, hch⟩]

/-- When every table variant has a channel key, the allowed-values
construction succeeds. -/
lemma allowedValuesOf_ok {tables : List TableRef}
    (h : ∀ t ∈ tables, t.channel ≠ none) :
    ∃ vs, allowedValuesOf tables = .ok vs := by
  induction tables with
  | nil => exact ⟨[], rfl⟩
  | cons t rest ih =>
    obtain ⟨vs, hvs⟩ := ih (fun x hx => h x (List.mem_cons_of_mem t hx))
    cases hch : t.channel with
    | none => exact absurd hch (h t (List.mem_cons_self t rest))
    | some c => exact ⟨_, by rw [allowedValuesOf, hch, hvs]⟩

/-- Claim C10: view assembly is total only when the tables list is non-empty
and, for a multi-entry list, every entry carries a channel key: an empty
list raises IndexError at table resolution; a multi-entry list with a
channel-less variant raises KeyError while building the channel parameter
(provided assembly reaches that step, i.e. measure generation succeeded);
and under the precondition, with measures derivable, assembly returns a
view. -/
theorem C10_to_lookml_totality (viewName : String) (tables : List TableRef)
    (isDimGroup : Dimension → Bool) (dimsOf : String → List Dimension) :
    (tables = [] →
      PingView.to_lookml viewName tables isDimGroup dimsOf =
        .error .indexError) ∧
    (∀ t0 rest, tables = t0 :: rest →
      (1 < tables.length →
        (∃ t ∈ tables, t.channel = none) →
        (∃ ms, PingView.get_measures (dimsOf (resolveTable t0 tables))
            (resolveTable t0 tables) = .ok ms) →
        PingView.to_lookml viewName tables isDimGroup dimsOf =
          .error (.keyError "channel")) ∧
      ((1 < tables.length → ∀ t ∈ tables, t.channel ≠ none) →
        (∃ ms, PingView.get_measures (dimsOf (resolveTable t0 tables))
            (resolveTable t0 tables) = .ok ms) →
        ∃ v, PingView.to_lookml viewName tables isDimGroup dimsOf = .ok v)) := by
  constructor
  · rintro rfl
    rfl
  · rintro t0 rest rfl
    constructor
    · rintro hlen ⟨u, hu, hch⟩ ⟨ms, hms⟩
      unfold PingView.to_lookml
      dsimp only
      rw [hms]
      dsimp only
      rw [if_pos hlen, allowedValuesOf_error ⟨u, hu, hch⟩]
    · rintro hch ⟨ms, hms⟩
      unfold PingView.to_lookml
      dsimp only
      rw [hms]
      dsimp only
      by_cases hlen : 1 < (t0 :: rest).length
      · rw [if_pos hlen]
        obtain ⟨vs, hvs⟩ := allowedValuesOf_ok (hch hlen)
        rw [hvs]
        exact ⟨_, rfl⟩
      · rw [if_neg hlen]
        exact ⟨_, rfl⟩

/-- Witness for C10, exercising the KeyError failure mode at a concrete
two-variant table list whose second variant lacks a channel. -/
theorem C10_to_lookml_totality_witness :
    PingView.to_lookml "v"
        [{ table := "t1", channel := some "release" }, { table := "t2" }]
        (fun _ => false)
        (fun _ => [{ name := "client_id" }, { name := "document_id" }]) =
      .error (.keyError "channel") :=
  ((C10_to_lookml_totality "v"
      [{ table := "t1", channel := some "release" }, { table := "t2" }]
      (fun _ => false)
      (fun _ => [{ name := "client_id" }, { name := "document_id" }])).2
    { table := "t1", channel := some "release" } [{ table := "t2" }] rfl).1
    (by decide)
    ⟨{ table := "t2" }, by decide, rfl⟩
    ⟨_, rfl⟩
